import Mathlib

/-!
Verification development for the turn-orchestration core of the aidm
repository: the fenced-JSON structured-response extractor, the token budget
enforcer, the combat-readiness checker, the retry wrapper, the scene-patch
merge and the turn orchestrator are embedded shallowly as executable Lean
functions translated from the Python sources, and the specified properties
are settled against them.

Modelling conventions:
* Python objects produced by json.loads are modelled by the inductive JVal;
  Python None is JVal.jnull, dicts are association lists with unique keys.
* Python exceptions relevant to the orchestrator (TypeError, AttributeError,
  KeyError, the orchestrator's own wrapped errors) are modelled by PyErr and
  functions that can raise return Except PyErr.
* The external collaborators (openai client calls, the tiktoken tokenizer,
  the json parser) are parameters of the model: the remote-call outcomes are
  fields of OrchestratorDeps, the json parser is a function parameter
  json_loads, and the tokenizer is a Tokenizer structure (the spec describes
  it only as "a deterministic tokenizer"; charTokenizer instantiates it).
* Character classes are modelled for ASCII text: isPySpace covers the ASCII
  whitespace matched by the regex class \s and by str.strip.
-/

namespace Aidm

/-- JSON-like values: the results of Python json.loads (dict, list, str,
number, bool, None). -/
inductive JVal where
  | jnull : JVal
  | jbool : Bool → JVal
  | jnum : ℚ → JVal
  | jstr : String → JVal
  | jarr : List JVal → JVal
  | jobj : List (String × JVal) → JVal

/-- Test for the Python None value. -/
def JVal.isNull : JVal → Bool
  | .jnull => true
  | _ => false

/-- First-occurrence lookup in an association list modelling a Python dict
(dicts have unique keys, so first occurrence is the only occurrence). -/
def lookupField : List (String × JVal) → String → Option JVal
  | [], _ => none
  | (k, v) :: rest, key => if k = key then some v else lookupField rest key

/-- Python dict assignment d[key] = v: replaces the value of an existing key
in place, otherwise appends the new key at the end (insertion order). -/
def dictSet : List (String × JVal) → String → JVal → List (String × JVal)
  | [], key, v => [(key, v)]
  | (k, w) :: rest, key, v =>
      if k = key then (k, v) :: rest else (k, w) :: dictSet rest key v

/-- Python dict.get(key) with default None: an absent key and a stored None
value both surface as the Python None object, modelled as Option.none. -/
def pyDictGet (fields : List (String × JVal)) (key : String) : Option JVal :=
  match lookupField fields key with
  | some JVal.jnull => none
  | r => r

/-- Python dict.get(key, default): absent keys give the default; a stored
None value is returned as is (it is a value, not absence). -/
def pyDictGetD (fields : List (String × JVal)) (key : String) (default : JVal) : JVal :=
  (lookupField fields key).getD default

/-- Python truthiness of a json.loads value: None, False, 0, "" and empty
containers are falsy. -/
def jTruthy : JVal → Bool
  | .jnull => false
  | .jbool b => b
  | .jnum q => if q = 0 then false else true
  | .jstr s => !s.data.isEmpty
  | .jarr xs => !xs.isEmpty
  | .jobj fs => !fs.isEmpty

/-- ASCII whitespace: the characters matched both by the regex class \s and
by str.strip / str.rstrip on ASCII text. -/
def isPySpace (c : Char) : Bool :=
  c = ' ' || c = '\t' || c = '\n' || c = '\r' || c = '\x0b' || c = '\x0c'

/-- Python str.strip(): remove leading and trailing whitespace. -/
def pyStrip (s : String) : String :=
  String.mk (((s.data.dropWhile isPySpace).reverse.dropWhile isPySpace).reverse)

/-- Python str.rstrip(): remove trailing whitespace. -/
def pyRstrip (s : String) : String :=
  String.mk ((s.data.reverse.dropWhile isPySpace).reverse)

/-- Python str.lower() (ASCII case folding).  Implemented on the character
list so that it reduces in the kernel. -/
def pyLower (s : String) : String := String.mk (s.data.map Char.toLower)

/-- Python str.upper() (ASCII case folding). -/
def pyUpper (s : String) : String := String.mk (s.data.map Char.toUpper)

/-- Parse a nonempty decimal numeral (models int() on the configuration
values actually used; other inputs fail). -/
def pyParseNat (s : String) : Option Nat :=
  if s.data ≠ [] ∧ s.data.all Char.isDigit then
    some (s.data.foldl (fun n c => n * 10 + (c.toNat - 48)) 0)
  else none

/-- Read a JSON array of strings as a Python list[str]. The sources only ever
store strings in these arrays; a non-string element maps to "". -/
def jStrList : JVal → List String
  | .jarr xs => xs.map (fun v => match v with | .jstr s => s | _ => "")
  | _ => []

/-- Read a JSON string value; non-strings map to "" (not reached by the
modelled executions, which store strings in these positions). -/
def jStr : JVal → String
  | .jstr s => s
  | _ => ""

/-- Collect a list of JSON values into strings, failing on a non-string. -/
def allStrings : List JVal → Option (List String)
  | [] => some []
  | .jstr s :: rest => (allStrings rest).map (fun l => s :: l)
  | _ => none

/-! ### The fenced-JSON block scanner

game_engine.py compiles JSON_BLOCK_RE, the pattern  triple-backtick json,
then \s*, then the non-greedy group of an open brace, a shortest stretch of
arbitrary characters (DOTALL) and a close brace, then \s*, then a closing
triple backtick.  finditer scans left to right, attempting a match at every
position and resuming after each match.  Because neither a brace nor a
backtick is whitespace, the greedy \s* parts are forced to consume exactly
the maximal whitespace run, and the non-greedy group closes at the first
close brace that is followed (after whitespace) by a triple backtick.  The
scanner below implements exactly that procedure. -/

/-- The three-character closing fence. -/
def backticks3 : List Char := ['\x60', '\x60', '\x60']

/-- The literal opening fence of JSON_BLOCK_RE. -/
def fenceOpen7 : List Char := ['\x60', '\x60', '\x60', 'j', 's', 'o', 'n']

/-- Scan for the close of the non-greedy group: find the first close brace
that is followed, after whitespace, by the closing fence.  Returns the
characters consumed by the non-greedy stretch, the closing characters
(close brace, whitespace, fence) and the remainder of the input. -/
def findClose : List Char → Option (List Char × List Char × List Char)
  | [] => none
  | c :: rest =>
      if c = '\x7d' then
        let ws := rest.takeWhile isPySpace
        let r2 := rest.dropWhile isPySpace
        if r2.take 3 = backticks3 then
          some ([], c :: (ws ++ backticks3), r2.drop 3)
        else
          match findClose rest with
          | some (inner, closer, after) => some (c :: inner, closer, after)
          | none => none
      else
        match findClose rest with
        | some (inner, closer, after) => some (c :: inner, closer, after)
        | none => none

/-- Attempt to match JSON_BLOCK_RE at the head of the input.  On success,
returns the full matched span (group 0), the captured brace group (group 1)
and the remainder after the match. -/
def matchFence (s : List Char) : Option (List Char × List Char × List Char) :=
  if s.take 7 = fenceOpen7 then
    let t := s.drop 7
    let ws1 := t.takeWhile isPySpace
    match t.dropWhile isPySpace with
    | c :: u =>
        if c = '\x7b' then
          match findClose u with
          | some (inner, closer, after) =>
              some (fenceOpen7 ++ ws1 ++ (c :: (inner ++ closer)),
                    c :: (inner ++ ['\x7d']), after)
          | none => none
        else none
    | [] => none
  else none

/-- One left-to-right scan of finditer / sub: attempt a match at every
position, resume after each match; returns the list of matches (full span
and group 1) and the input with the matched spans removed.  The fuel
argument bounds the recursion and is initialised with the input length,
which is always sufficient. -/
def scanFenceAux : Nat → List Char → List (List Char × List Char) × List Char
  | 0, s => ([], s)
  | _ + 1, [] => ([], [])
  | fuel + 1, c :: rest =>
      match matchFence (c :: rest) with
      | some (span, group, after) =>
          let p := scanFenceAux fuel after
          ((span, group) :: p.1, p.2)
      | none =>
          let p := scanFenceAux fuel rest
          (p.1, c :: p.2)

/-- finditer of JSON_BLOCK_RE over a string: the matches in order, each as
(full span, group 1). -/
def json_block_finditer (s : String) : List (List Char × List Char) :=
  (scanFenceAux s.data.length s.data).1

/-- JSON_BLOCK_RE.sub("", s): the string with every matched span removed. -/
def json_block_sub (s : String) : List Char :=
  (scanFenceAux s.data.length s.data).2

/-- extract_update_payload (game_engine.py): pull the last fenced json block
out of the text and parse its brace group; None when there is no block or
the parse fails.  The json parser is a parameter of the model. -/
def extract_update_payload (json_loads : String → Option JVal) (dm_text : String) :
    Option JVal :=
  match (json_block_finditer dm_text).getLast? with
  | none => none
  | some m => json_loads (String.mk m.2)

/-- strip_json_block (game_engine.py): remove every matched fenced block and
strip trailing whitespace. -/
def strip_json_block (dm_text : String) : String :=
  pyRstrip (String.mk (json_block_sub dm_text))

/-! ### Token budget enforcer (library/token_budget.py)

The tokenizer itself is tiktoken, an external collaborator; the spec
describes it only as a deterministic tokenizer with encode/decode.  It is
modelled by the Tokenizer structure below, instantiated for the proofs with
the one-token-per-character tokenizer. -/

/-- Modelled from the spec: the token counter collaborator, "a deterministic
tokenizer" with encode and decode (tiktoken in the source, which is not part
of this repository). -/
structure Tokenizer (τ : Type) where
  encode : String → List τ
  decode : List τ → String

/-- The one-token-per-character instantiation of the tokenizer model. -/
def charTokenizer : Tokenizer Char :=
  { encode := String.data, decode := String.mk }

/-- Python list slice lst[-n:].  Note that lst[-0:] is the whole list, so a
budget of zero does not trim at all. -/
def pyTakeLast {α : Type} (l : List α) (n : Nat) : List α :=
  if n = 0 then l else l.drop (l.length - n)

namespace TokenBudget

/-- The per-agent-type token ceilings (TokenBudget.BUDGETS). -/
def BUDGETS : List (String × Nat) :=
  [("router", 1000), ("narrative_short", 6000), ("narrative_long", 8000),
   ("qa_rules", 5000), ("qa_situation", 5000), ("npc_dialogue", 6000),
   ("combat_designer", 8000), ("travel", 6000), ("gameplay", 7000)]

/-- The global default budget for unlisted agent types. -/
def DEFAULT_BUDGET : Nat := 6000

/-- TokenBudget.get_budget: an environment variable TOKEN_BUDGET_<TYPE>
overrides the table when it is a nonempty decimal numeral; otherwise the
table entry, or the default for unlisted types.  The process environment is
a parameter of the model. -/
def get_budget (env : String → Option String) (agent_type : String) : Nat :=
  let fallback := ((BUDGETS.lookup agent_type).getD DEFAULT_BUDGET)
  match env ("TOKEN_BUDGET_" ++ pyUpper agent_type) with
  | some v =>
      if v.data.isEmpty then fallback
      else match pyParseNat v with
           | some n => n
           | none => fallback
  | none => fallback

/-- TokenBudget.count_tokens: the length of the encoding (0 for ""). -/
def count_tokens {τ : Type} (tok : Tokenizer τ) (text : String) : Nat :=
  if text.data.isEmpty then 0 else (tok.encode text).length

/-- TokenBudget.trim_to_budget: truncate by token count; by default the end
of the text is preserved (tokens[-max_tokens:]). -/
def trim_to_budget {τ : Type} (tok : Tokenizer τ) (text : String)
    (max_tokens : Nat) (preserve_end : Bool) : String :=
  if text.data.isEmpty then text
  else
    let tokens := tok.encode text
    if tokens.length ≤ max_tokens then text
    else if preserve_end then tok.decode (pyTakeLast tokens max_tokens)
    else tok.decode (tokens.take max_tokens)

/-- The metadata dict reported by validate_context / enforce_budget.  The
Python dict gains the was_trimmed and original_token_count entries inside
enforce_budget; here they are always present, with was_trimmed false and
original_token_count none standing for the entries validate_context does
not yet carry. -/
structure BudgetMetadata where
  agent_type : String
  token_count : Nat
  budget : Nat
  usage_percent : ℚ
  over_budget_by : Nat
  was_trimmed : Bool
  original_token_count : Option Nat
  deriving Repr, DecidableEq

/-- TokenBudget.validate_context: is the context within budget, plus the
metadata describing the measurement. -/
def validate_context {τ : Type} (env : String → Option String)
    (tok : Tokenizer τ) (agent_type context : String) : Bool × BudgetMetadata :=
  let budget := get_budget env agent_type
  let token_count := count_tokens tok context
  (decide (token_count ≤ budget),
   { agent_type := agent_type
     token_count := token_count
     budget := budget
     usage_percent := if 0 < budget then ((token_count : ℚ) / (budget : ℚ)) * 100 else 0
     over_budget_by := token_count - budget
     was_trimmed := false
     original_token_count := none })

/-- TokenBudget.enforce_budget: return the context unchanged when within
budget, otherwise the trimmed context, with the metadata updated. -/
def enforce_budget {τ : Type} (env : String → Option String)
    (tok : Tokenizer τ) (agent_type context : String) : String × BudgetMetadata :=
  let v := validate_context env tok agent_type context
  if v.1 then (context, v.2)
  else
    let budget := get_budget env agent_type
    let trimmed := trim_to_budget tok context budget true
    (trimmed,
     { v.2 with
        was_trimmed := true
        original_token_count := some v.2.token_count
        token_count := budget
        usage_percent := 100 })

end TokenBudget

/-- Python min on rationals (an if-then-else, which evaluates in the
kernel). -/
def qmin (a b : ℚ) : ℚ := if a ≤ b then a else b

/-! ### Retry wrapper (library/retry.py)

run_with_retry is generic in the wrapped call and in the exception
classifier (is_transient_error inspects openai exception classes, an
external collaborator), so both are parameters.  The outcome of each
attempt is given by a function from the 1-based attempt number. -/

/-- Outcome of one attempt of the wrapped call. -/
inductive AttemptOutcome (ε α : Type) where
  | ok : α → AttemptOutcome ε α
  | raise : ε → AttemptOutcome ε α

/-- Result of run_with_retry: the returned value, the re-raised final
exception, or the failure of the trailing assert (reachable only with
max_attempts = 0, when the loop body never runs). -/
inductive RetryResult (ε α : Type) where
  | value : α → RetryResult ε α
  | raised : ε → RetryResult ε α
  | assertionError : RetryResult ε α

/-- The retry loop of run_with_retry, one recursive step per attempt.  The
fuel counts the remaining loop iterations; run_with_retry starts it at
max_attempts so it never runs out before the loop ends. -/
def retryAttempts {ε α : Type} (is_transient : ε → Bool)
    (call : Nat → AttemptOutcome ε α) (base_delay max_delay : ℚ)
    (max_attempts : Nat) : Nat → Nat → RetryResult ε α × List ℚ
  | 0, _ => (.assertionError, [])
  | fuel + 1, attempt =>
      match call attempt with
      | .ok v => (.value v, [])
      | .raise e =>
          if !is_transient e then (.raised e, [])
          else if attempt = max_attempts then (.raised e, [])
          else
            let delay := qmin (base_delay * 2 ^ (attempt - 1)) max_delay
            let rest := retryAttempts is_transient call base_delay max_delay
                          max_attempts fuel (attempt + 1)
            (rest.1, delay :: rest.2)

/-- run_with_retry (library/retry.py): attempts 1..max_attempts, sleeping
min(base_delay * 2^(attempt-1), max_delay) between failed transient
attempts; returns the result together with the sequence of sleeps. -/
def run_with_retry {ε α : Type} (is_transient : ε → Bool)
    (call : Nat → AttemptOutcome ε α) (max_attempts : Nat)
    (base_delay max_delay : ℚ) : RetryResult ε α × List ℚ :=
  retryAttempts is_transient call base_delay max_delay max_attempts max_attempts 1

/-- DEFAULT_MAX_ATTEMPTS (library/retry.py). -/
def DEFAULT_MAX_ATTEMPTS : Nat := 3

/-- DEFAULT_BASE_DELAY (library/retry.py). -/
def DEFAULT_BASE_DELAY : ℚ := 1

/-- DEFAULT_MAX_DELAY (library/retry.py). -/
def DEFAULT_MAX_DELAY : ℚ := 8

/-! ### Combat readiness (library/combat_readiness.py) -/

/-- The Literal["keep", "clear", "update"] action of CombatPlanStatus. -/
inductive CombatAction where
  | keep : CombatAction
  | clear : CombatAction
  | update : CombatAction
  deriving Repr, DecidableEq

/-- CombatPlanStatus: the action together with a human-readable reason.  The
reason strings abbreviate the source's f-string formatting (which
interpolates list reprs); no property concerns their exact text. -/
structure CombatPlanStatus where
  action : CombatAction
  reason : String
  deriving Repr, DecidableEq

/-- get_npc_set: the Python set of nonempty participant names, lowercased
and stripped.  Sets of strings are modelled as deduplicated lists (the
first occurrence is kept); the dedup makes the list length the set
cardinality. -/
def get_npc_set (participants : List String) : List String :=
  ((participants.filter (fun p => !p.data.isEmpty)).map
    (fun p => pyStrip (pyLower p))).dedup

/-- Python set difference a - b on deduplicated lists. -/
def setDiff (a b : List String) : List String :=
  a.filter (fun n => ¬ n ∈ b)

/-- check_combat_plan_validity (library/combat_readiness.py).  The combat
plan is a dict (or None); the checker reads its prepared_for_npcs and
prepared_for_location entries with defaults. -/
def check_combat_plan_validity (participants : List String)
    (specific_location : String) (hostile_environment : Bool)
    (combat_plan : Option (List (String × JVal))) : CombatPlanStatus :=
  let has_npcs := !participants.isEmpty
  let has_plan := combat_plan.isSome
  if !has_npcs && !hostile_environment then
    if has_plan then
      ⟨.clear, "No NPCs present and environment is not hostile"⟩
    else
      ⟨.keep, "No plan needed - no NPCs and safe environment"⟩
  else if !has_plan then
    ⟨.update, "No combat plan exists but a threat is present"⟩
  else
    let planFields := combat_plan.getD []
    let plan_npcs := get_npc_set (jStrList (pyDictGetD planFields "prepared_for_npcs" (JVal.jarr [])))
    let plan_location := jStr (pyDictGetD planFields "prepared_for_location" (JVal.jstr ""))
    let current_npcs := get_npc_set participants
    let new_npcs := setDiff current_npcs plan_npcs
    if new_npcs ≠ [] then
      ⟨.update, "New NPCs entered the scene"⟩
    else
      let left_npcs := setDiff plan_npcs current_npcs
      if left_npcs ≠ [] ∧ plan_npcs.length / 2 < left_npcs.length then
        ⟨.update, "Significant NPCs left the scene"⟩
      else if plan_location ≠ "" ∧ specific_location ≠ "" then
        if pyLower plan_location ≠ pyLower specific_location then
          ⟨.update, "Location changed"⟩
        else
          ⟨.keep, "Combat plan still valid for current NPCs and location"⟩
      else
        ⟨.keep, "Combat plan still valid for current NPCs and location"⟩

/-! ### Scene state and the patch merge (game_engine.py) -/

/-- SceneState (game_engine.py): the six pydantic fields. -/
structure SceneState where
  time_of_day : String
  region : String
  sub_region : String
  specific_location : String
  participants : List String
  exits : List String
  deriving Repr, DecidableEq

/-- SceneState.model_dump(): the model as a dict in field order. -/
def SceneState.model_dump (s : SceneState) : List (String × JVal) :=
  [("time_of_day", .jstr s.time_of_day),
   ("region", .jstr s.region),
   ("sub_region", .jstr s.sub_region),
   ("specific_location", .jstr s.specific_location),
   ("participants", .jarr (s.participants.map JVal.jstr)),
   ("exits", .jarr (s.exits.map JVal.jstr))]

/-- SceneState(**data): pydantic validation.  Each of the six fields must be
present with a value of the declared type; extra keys are ignored (the
default extra behaviour); a failure models the pydantic ValidationError. -/
def sceneStateOfData (data : List (String × JVal)) : Option SceneState := do
  let t ← lookupField data "time_of_day"
  let time_of_day ← (match t with | .jstr s => some s | _ => none)
  let r ← lookupField data "region"
  let region ← (match r with | .jstr s => some s | _ => none)
  let sr ← lookupField data "sub_region"
  let sub_region ← (match sr with | .jstr s => some s | _ => none)
  let sl ← lookupField data "specific_location"
  let specific_location ← (match sl with | .jstr s => some s | _ => none)
  let p ← lookupField data "participants"
  let participants ← (match p with | .jarr xs => allStrings xs | _ => none)
  let e ← lookupField data "exits"
  let exits ← (match e with | .jarr xs => allStrings xs | _ => none)
  pure ⟨time_of_day, region, sub_region, specific_location, participants, exits⟩

/-- merge_scene_patch (game_engine.py): dump the scene to a dict, overwrite
every key of the patch whose value is not None, and rebuild the model.  The
result is a fresh value; the base scene is untouched. -/
def merge_scene_patch (scene : SceneState) (patch : List (String × JVal)) :
    Option SceneState :=
  let data := patch.foldl
    (fun d kv => if kv.2.isNull then d else dictSet d kv.1 kv.2)
    scene.model_dump
  sceneStateOfData data

/-! ### Turn orchestration (orchestration/turn_router.py)

The remote agent calls (router, specialists, combat designer) go through
run_with_retry; the orchestrator only observes their net outcome, so the
model takes those outcomes, together with the json parser and the agent
registry, as the OrchestratorDeps record.  Python exceptions that can
escape the orchestrator are modelled by PyErr. -/

/-- The Python exceptions the orchestration model can raise. -/
inductive PyErr where
  | typeError : String → PyErr
  | attributeError : String → PyErr
  | keyError : String → PyErr
  | turnError : String → PyErr

/-- Net outcome of the classifier call through the retry wrapper: an
exception, a structured RouterIntent (which has intent, confidence and note
attributes), or an unstructured final output rendered as text. -/
inductive RouterOutcome where
  | raised : RouterOutcome
  | structuredOut : String → String → String → RouterOutcome
  | unstructured : String → RouterOutcome

/-- Python `key in value` on a json.loads result: key membership for dicts,
element equality for lists, substring test for strings; None, numbers and
booleans are not containers (TypeError).  List elements compare equal to
the key only when they are strings. -/
def pyContains (key : String) : JVal → Except PyErr Bool
  | .jobj fs => .ok (lookupField fs key).isSome
  | .jarr xs => .ok (xs.any (fun v => match v with | .jstr s => decide (s = key) | _ => false))
  | .jstr s => .ok (decide (key.data <:+: s.data))
  | _ => .error (.typeError "argument is not iterable")

/-- Python value.get(key, default): only dicts have a get method
(AttributeError otherwise); a stored None value is returned, not the
default. -/
def pyValGetD (v : JVal) (key : String) (default : JVal) : Except PyErr JVal :=
  match v with
  | .jobj fs => .ok ((lookupField fs key).getD default)
  | _ => .error (.attributeError "object has no attribute get")

/-- Python value.get(key) with default None: an absent key and a stored None
both surface as None. -/
def pyValGet (v : JVal) (key : String) : Except PyErr (Option JVal) :=
  match v with
  | .jobj fs => .ok (match lookupField fs key with
                     | some JVal.jnull => none
                     | r => r)
  | _ => .error (.attributeError "object has no attribute get")

/-- Read a Python list[str] value strictly (the combat checker's
participants argument); anything else is outside the modelled executions
and raises. -/
def jAsStrList (v : JVal) : Except PyErr (List String) :=
  match v with
  | .jarr xs =>
      match allStrings xs with
      | some l => .ok l
      | none => .error (.typeError "expected list of strings")
  | _ => .error (.typeError "expected list of strings")

/-- Read a Python str value strictly; anything else raises. -/
def jAsStr (v : JVal) : Except PyErr String :=
  match v with
  | .jstr s => .ok s
  | _ => .error (.typeError "expected string")

/-- The outcome of every external collaborator the orchestrator consumes,
plus the json parser and the provider-envelope stripper
(extract_narrative_from_runresult), which no verified property concerns. -/
structure OrchestratorDeps where
  json_loads : String → Option JVal
  agents : String → Bool
  router_outcome : RouterOutcome
  specialist_outcome : String → Option String
  combat_designer_outcome : Option String
  extract_narrative : String → String

/-- The resolved classification (intent, confidence, note).  In the
structured and fallback branches these are strings; the legacy JSON branch
can produce arbitrary json values. -/
structure ResolvedIntent where
  intent : JVal
  confidence : JVal
  note : JVal

/-- The classification step of orchestrate_turn (turn_router.py lines
246-284): on an exception fall back to narrative_short/low; on a structured
RouterIntent take its fields; otherwise try json.loads on the stripped text
then extract_update_payload, falling back when the result is falsy or has
no intent key. -/
def resolve_router_intent (json_loads : String → Option JVal) :
    RouterOutcome → Except PyErr ResolvedIntent
  | .raised =>
      .ok ⟨.jstr "narrative_short", .jstr "low",
           .jstr "Router failed, defaulting to short narrative"⟩
  | .structuredOut intent confidence note =>
      .ok ⟨.jstr intent, .jstr confidence, .jstr note⟩
  | .unstructured text =>
      let router_data : Option JVal :=
        match json_loads (pyStrip text) with
        | some v => some v
        | none => extract_update_payload json_loads text
      match router_data with
      | none =>
          .ok ⟨.jstr "narrative_short", .jstr "low",
               .jstr "Router returned invalid format, defaulting to short narrative"⟩
      | some rd =>
          if !jTruthy rd then
            .ok ⟨.jstr "narrative_short", .jstr "low",
                 .jstr "Router returned invalid format, defaulting to short narrative"⟩
          else do
            let hasIntent ← pyContains "intent" rd
            if !hasIntent then
              .ok ⟨.jstr "narrative_short", .jstr "low",
                   .jstr "Router returned invalid format, defaulting to short narrative"⟩
            else do
              let i ← pyValGetD rd "intent" (.jstr "narrative_short")
              let c ← pyValGetD rd "confidence" (.jstr "medium")
              let n ← pyValGetD rd "note" (.jstr "")
              .ok ⟨i, c, n⟩

/-- The keys of the agent_map built in orchestrate_turn. -/
def intent_labels : List String :=
  ["narrative_short", "narrative_long", "qa_situation", "qa_rules",
   "npc_dialogue", "combat_designer", "travel", "gameplay"]

/-- The dict returned by check_and_update_combat_plan.  The skip result
carries no combat_plan key in the source; since the orchestrator reads the
key with .get, the absent key is modelled as none. -/
structure CombatUpdateResult where
  action : String
  reason : String
  combat_plan : Option JVal

/-- The scene inputs that combat readiness is evaluated against
(turn_router.py lines 111-123): patch values win over the pre-turn scene
state via Python `or` for participants and specific_location (so falsy
patch values fall back), and via `is not None` for hostile_environment
(so only None falls back). -/
def combat_readiness_inputs (scene_state scene_patch : JVal) :
    Except PyErr (JVal × JVal × JVal) := do
  let pPatch ← pyValGet scene_patch "participants"
  let current_participants ←
    match pPatch with
    | some v =>
        if jTruthy v then pure v
        else pyValGetD scene_state "participants" (.jarr [])
    | none => pyValGetD scene_state "participants" (.jarr [])
  let lPatch ← pyValGet scene_patch "specific_location"
  let current_location ←
    match lPatch with
    | some v =>
        if jTruthy v then pure v
        else pyValGetD scene_state "specific_location" (.jstr "")
    | none => pyValGetD scene_state "specific_location" (.jstr "")
  let hostile_from_patch ← pyValGet scene_patch "hostile_environment"
  let hostile_from_state ← pyValGetD scene_state "hostile_environment" (.jbool false)
  let current_hostile := hostile_from_patch.getD hostile_from_state
  pure (current_participants, current_location, current_hostile)

/-- check_and_update_combat_plan (turn_router.py): evaluate combat
readiness against the current scene and the specialist's scene patch and,
when an update is needed, invoke the combat designer (errors in that
region are caught and degrade to an error result that retains the previous
plan). -/
def check_and_update_combat_plan (deps : OrchestratorDeps)
    (session_context : List (String × JVal)) (update_payload : JVal) :
    Except PyErr CombatUpdateResult := do
  let scene_state := (lookupField session_context "scene_state").getD (.jobj [])
  let scene_patch ← pyValGetD update_payload "scene_state_patch" (.jobj [])
  let inputs ← combat_readiness_inputs scene_state scene_patch
  let current_plan ← pyValGet scene_state "combat_plan"
  let plan_arg ←
    match current_plan with
    | none => pure none
    | some (.jobj fs) => pure (some fs)
    | some _ => Except.error (.attributeError "combat plan is not a dict")
  let participants ← jAsStrList inputs.1
  let location ← jAsStr inputs.2.1
  let status := check_combat_plan_validity participants location
                  (jTruthy inputs.2.2) plan_arg
  match status.action with
  | .clear => pure ⟨"clear", status.reason, none⟩
  | .keep => pure ⟨"keep", status.reason, current_plan⟩
  | .update =>
      if !(deps.agents "combat_designer") then
        pure ⟨"skip", "combat_designer agent not available", none⟩
      else
        let attempt : Except PyErr JVal := do
          match deps.combat_designer_outcome with
          | none => Except.error (.turnError "combat designer call failed")
          | some response_raw =>
              let combat_payload :=
                match extract_update_payload deps.json_loads response_raw with
                | some v => if jTruthy v then v else .jobj []
                | none => .jobj []
              let en ← pyValGetD combat_payload "encounter_name" (.jstr "")
              let es ← pyValGetD combat_payload "encounter_summary" (.jstr "")
              let er ← pyValGetD combat_payload "encounter_role" (.jstr "")
              let td ← pyValGetD combat_payload "target_difficulty" (.jstr "")
              let bm ← pyValGetD combat_payload "battlefield_and_mechanics" (.jstr "")
              let ta ← pyValGetD combat_payload "tactics" (.jstr "")
              let op ← pyValGetD combat_payload "opponents" (.jarr [])
              pure (JVal.jobj
                [("encounter_name", en), ("encounter_summary", es),
                 ("encounter_role", er), ("target_difficulty", td),
                 ("battlefield_and_mechanics", bm), ("tactics", ta),
                 ("opponents", op),
                 ("prepared_for_npcs",
                  .jarr (participants.map (fun p => JVal.jstr (pyStrip (pyLower p))))),
                 ("prepared_for_location", inputs.2.1)])
        match attempt with
        | .ok new_plan => pure ⟨"update", status.reason, some new_plan⟩
        | .error _ => pure ⟨"error", "Failed to update", current_plan⟩

/-- The result dict of orchestrate_turn. -/
structure TurnResult where
  dm_response : String
  update_payload : JVal
  intent_used : String
  routing_note : JVal
  combat_plan_action : CombatUpdateResult

/-- orchestrate_turn (turn_router.py): classify (with fallback), dispatch
to the specialist for the resolved intent (falling back to narrative_short
when no agent is registered for it), run the specialist through the retry
wrapper (a failure is fatal for the turn), extract the structured payload
and the narrative, run the combat check, and fold a combat-plan update or
clear into the payload's scene_state_patch. -/
def orchestrate_turn (deps : OrchestratorDeps)
    (session_context : List (String × JVal)) : Except PyErr TurnResult := do
  if !(deps.agents "router") then Except.error (.keyError "router")
  else do
    let resolved ← resolve_router_intent deps.json_loads deps.router_outcome
    let registered : Option String :=
      match resolved.intent with
      | .jstr s => if s ∈ intent_labels ∧ deps.agents s then some s else none
      | _ => none
    let intent ← match registered with
      | some s => pure s
      | none =>
          if deps.agents "narrative_short" then pure "narrative_short"
          else Except.error (.keyError "narrative_short")
    match deps.specialist_outcome intent with
    | none => Except.error (.turnError ("Error from " ++ intent ++ " agent"))
    | some raw => do
        let clean := deps.extract_narrative raw
        let update_payload0 :=
          match extract_update_payload deps.json_loads clean with
          | some v => if jTruthy v then v else .jobj []
          | none => .jobj []
        let dm_response := strip_json_block clean
        let combat ← check_and_update_combat_plan deps session_context update_payload0
        let update_payload ←
          if combat.action = "update" ∨ combat.action = "clear" then do
            let hasKey ← pyContains "scene_state_patch" update_payload0
            let up1 ←
              if hasKey then pure update_payload0
              else match update_payload0 with
                   | .jobj fs => pure (JVal.jobj (dictSet fs "scene_state_patch" (.jobj [])))
                   | _ => Except.error (.typeError "object does not support item assignment")
            match up1 with
            | .jobj fs =>
                match lookupField fs "scene_state_patch" with
                | none => Except.error (.keyError "scene_state_patch")
                | some (.jobj inner) =>
                    pure (JVal.jobj (dictSet fs "scene_state_patch"
                      (.jobj (dictSet inner "combat_plan" (combat.combat_plan.getD .jnull)))))
                | some _ => Except.error (.typeError "object does not support item assignment")
            | _ => Except.error (.typeError "object does not support item assignment")
          else pure update_payload0
        pure ⟨dm_response, update_payload, intent, resolved.note, combat⟩

/-! ### Specification-side definitions

These definitions restate properties in the words of the specification, to
be compared against the functions translated from the source. -/

/-- Interleave gap segments with match spans: gap 0, span 0, gap 1, span 1,
..., final gap.  Used to state that the narrative is the original text with
exactly the matched spans removed. -/
def joinInterleave : List (List Char) → List (List Char) → List Char
  | [], _ => []
  | g :: gs, [] => g ++ joinInterleave gs []
  | g :: gs, sp :: sps => g ++ sp ++ joinInterleave gs sps

/-- The combat-readiness decision exactly as the specification words it
(spec 4.3 and claim C2), including the unguarded location rule: when a plan
exists and neither npc rule fires, any case-insensitive difference between
the recorded and current locations demands an update. -/
def combat_action_claimed (participants : List String) (location : String)
    (hostile : Bool) (plan : Option (List (String × JVal))) : CombatAction :=
  if participants = [] ∧ hostile = false then
    (if plan.isSome then .clear else .keep)
  else if plan.isNone then .update
  else
    let planFields := plan.getD []
    let provenance := get_npc_set (jStrList (pyDictGetD planFields "prepared_for_npcs" (JVal.jarr [])))
    let planLoc := jStr (pyDictGetD planFields "prepared_for_location" (JVal.jstr ""))
    let current := get_npc_set participants
    if ¬ (∀ n ∈ current, n ∈ provenance) then .update
    else if provenance.length < 2 * (setDiff provenance current).length then .update
    else if pyLower planLoc ≠ pyLower location then .update
    else .keep

/-- The combat-readiness decision as the claim must be amended: identical to
combat_action_claimed except that the location rule only fires when both the
recorded and the current location are nonempty (the source guards the
comparison with Python truthiness of both strings). -/
def combat_action_amended (participants : List String) (location : String)
    (hostile : Bool) (plan : Option (List (String × JVal))) : CombatAction :=
  if participants = [] ∧ hostile = false then
    (if plan.isSome then .clear else .keep)
  else if plan.isNone then .update
  else
    let planFields := plan.getD []
    let provenance := get_npc_set (jStrList (pyDictGetD planFields "prepared_for_npcs" (JVal.jarr [])))
    let planLoc := jStr (pyDictGetD planFields "prepared_for_location" (JVal.jstr ""))
    let current := get_npc_set participants
    if ¬ (∀ n ∈ current, n ∈ provenance) then .update
    else if provenance.length < 2 * (setDiff provenance current).length then .update
    else if planLoc ≠ "" ∧ location ≠ "" ∧ pyLower planLoc ≠ pyLower location then .update
    else .keep

/-- The six field names of SceneState. -/
def sceneFields : List String :=
  ["time_of_day", "region", "sub_region", "specific_location",
   "participants", "exits"]

/-- Is a patch value type-correct for the SceneState field of the given
name?  Unknown keys accept any value (they are dropped by validation). -/
def sceneFieldOk (k : String) (v : JVal) : Bool :=
  if k = "time_of_day" ∨ k = "region" ∨ k = "sub_region" ∨ k = "specific_location" then
    (match v with | .jstr _ => true | _ => false)
  else if k = "participants" ∨ k = "exits" then
    (match v with | .jarr xs => (allStrings xs).isSome | _ => false)
  else true

/-- A patch is well typed when every non-None value fits its field. -/
def wellTypedPatch (patch : List (String × JVal)) : Bool :=
  patch.all (fun kv => kv.2.isNull || sceneFieldOk kv.1 kv.2)

/-- The value a merged string field must take: the patch value when the key
is present with a non-None string, the base value otherwise. -/
def strOverride (patch : List (String × JVal)) (k : String) (dflt : String) : String :=
  match lookupField patch k with
  | some (.jstr s) => s
  | _ => dflt

/-- The value a merged list field must take. -/
def listOverride (patch : List (String × JVal)) (k : String) (dflt : List String) : List String :=
  match lookupField patch k with
  | some (.jarr xs) => (allStrings xs).getD dflt
  | _ => dflt

/-- The participants value combat readiness is evaluated against: the patch
value via Python `or` (falsy patch values fall back to the scene state). -/
def sel_participants (ss sp : List (String × JVal)) : JVal :=
  match pyDictGet sp "participants" with
  | some v => if jTruthy v then v else pyDictGetD ss "participants" (.jarr [])
  | none => pyDictGetD ss "participants" (.jarr [])

/-- The location value combat readiness is evaluated against. -/
def sel_location (ss sp : List (String × JVal)) : JVal :=
  match pyDictGet sp "specific_location" with
  | some v => if jTruthy v then v else pyDictGetD ss "specific_location" (.jstr "")
  | none => pyDictGetD ss "specific_location" (.jstr "")

/-- The hostile-environment value combat readiness is evaluated against:
the patch value unless it is None (`is not None`, not truthiness). -/
def sel_hostile (ss sp : List (String × JVal)) : JVal :=
  (pyDictGet sp "hostile_environment").getD
    (pyDictGetD ss "hostile_environment" (.jbool false))

/-! ## Helper lemmas -/

theorem findClose_decomp :
    ∀ (l i cl a : List Char), findClose l = some (i, cl, a) → i ++ cl ++ a = l := by
  intro l
  induction l with
  | nil => intro i cl a h; simp [findClose] at h
  | cons c rest ih =>
      intro i cl a h
      rw [findClose] at h
      by_cases hc : c = '\x7d'
      · simp only [hc, if_true] at h
        by_cases ht : (rest.dropWhile isPySpace).take 3 = backticks3
        · simp only [ht, if_true, Option.some.injEq, Prod.mk.injEq] at h
          obtain ⟨hi, hcl, ha⟩ := h
          subst hi hcl ha
          have h1 : backticks3 ++ (rest.dropWhile isPySpace).drop 3
              = rest.dropWhile isPySpace := by
            rw [← ht, List.take_append_drop]
          simp only [List.nil_append, List.cons_append, List.append_assoc, h1,
            List.takeWhile_append_dropWhile, hc]
        · simp only [ht, if_false] at h
          cases hr : findClose rest with
          | none => rw [hr] at h; exact absurd h (by simp)
          | some t =>
              obtain ⟨i', cl', a'⟩ := t
              rw [hr] at h
              simp only [Option.some.injEq, Prod.mk.injEq] at h
              obtain ⟨hi, hcl, ha⟩ := h
              subst hi hcl ha
              have := ih i' cl' a' hr
              simp only [List.cons_append, this, hc]
      · simp only [hc, if_false] at h
        cases hr : findClose rest with
        | none => rw [hr] at h; exact absurd h (by simp)
        | some t =>
            obtain ⟨i', cl', a'⟩ := t
            rw [hr] at h
            simp only [Option.some.injEq, Prod.mk.injEq] at h
            obtain ⟨hi, hcl, ha⟩ := h
            subst hi hcl ha
            have := ih i' cl' a' hr
            simp only [List.cons_append, this]

theorem matchFence_decomp {s sp g a : List Char}
    (h : matchFence s = some (sp, g, a)) : sp ++ a = s ∧ sp ≠ [] := by
  rw [matchFence] at h
  by_cases h7 : s.take 7 = fenceOpen7
  · simp only [h7, if_true] at h
    cases hd : (s.drop 7).dropWhile isPySpace with
    | nil => rw [hd] at h; exact absurd h (by simp)
    | cons c u =>
        rw [hd] at h
        by_cases hc : c = '\x7b'
        · simp only [hc, if_true] at h
          cases hf : findClose u with
          | none => rw [hf] at h; exact absurd h (by simp)
          | some t =>
              obtain ⟨i, cl, aa⟩ := t
              rw [hf] at h
              simp only [Option.some.injEq, Prod.mk.injEq] at h
              obtain ⟨hsp, hg, ha⟩ := h
              subst hsp ha
              constructor
              · have hu : i ++ cl ++ aa = u := findClose_decomp u i cl aa hf
                conv_rhs => rw [← List.take_append_drop 7 s, h7]
                conv_rhs => rw [← List.takeWhile_append_dropWhile
                  (p := isPySpace) (l := s.drop 7), hd, ← hu]
                simp [List.append_assoc, hc]
              · simp [fenceOpen7]
        · simp only [hc, if_false] at h
          exact absurd h (by simp)
  · simp only [h7, if_false] at h
    exact absurd h (by simp)

theorem matchFence_shorter {s sp g a : List Char}
    (h : matchFence s = some (sp, g, a)) : a.length < s.length := by
  obtain ⟨hdec, hne⟩ := matchFence_decomp h
  have : sp.length + a.length = s.length := by
    rw [← hdec]; simp
  have : 0 < sp.length := List.length_pos.mpr hne
  omega

theorem scanFenceAux_congr :
    ∀ (f1 f2 : Nat) (s : List Char), s.length ≤ f1 → s.length ≤ f2 →
      scanFenceAux f1 s = scanFenceAux f2 s := by
  intro f1
  induction f1 with
  | zero =>
      intro f2 s h1 _
      have : s = [] := List.length_eq_zero.mp (Nat.le_zero.mp h1)
      subst this
      cases f2 <;> simp [scanFenceAux]
  | succ n ih =>
      intro f2 s h1 h2
      cases s with
      | nil => cases f2 <;> simp [scanFenceAux]
      | cons c rest =>
          cases f2 with
          | zero => simp at h2
          | succ m =>
              rw [scanFenceAux, scanFenceAux]
              cases hm : matchFence (c :: rest) with
              | some t =>
                  obtain ⟨sp, g, a⟩ := t
                  have hlt := matchFence_shorter hm
                  simp only [List.length_cons] at hlt h1 h2
                  have ha1 : a.length ≤ n := by omega
                  have ha2 : a.length ≤ m := by omega
                  simp only [ih m a ha1 ha2]
              | none =>
                  simp only [List.length_cons] at h1 h2
                  have hr1 : rest.length ≤ n := by omega
                  have hr2 : rest.length ≤ m := by omega
                  simp only [ih m rest hr1 hr2]

theorem scanFenceAux_no_match :
    ∀ (fuel : Nat) (s : List Char), (scanFenceAux fuel s).1 = [] →
      (scanFenceAux fuel s).2 = s := by
  intro fuel
  induction fuel with
  | zero => intro s _; simp [scanFenceAux]
  | succ n ih =>
      intro s h
      cases s with
      | nil => simp [scanFenceAux]
      | cons c rest =>
          rw [scanFenceAux] at h ⊢
          cases hm : matchFence (c :: rest) with
          | some t =>
              obtain ⟨sp, g, a⟩ := t
              rw [hm] at h
              simp at h
          | none =>
              rw [hm] at h
              exact congrArg (fun l => c :: l) (ih rest h)

theorem joinInterleave_cons_gap (c : Char) (g : List Char)
    (gs sps : List (List Char)) :
    joinInterleave ((c :: g) :: gs) sps = c :: joinInterleave (g :: gs) sps := by
  cases sps <;> simp [joinInterleave]

theorem scanFenceAux_decomp :
    ∀ (fuel : Nat) (s : List Char), s.length ≤ fuel →
      ∃ gaps : List (List Char),
        gaps.length = (scanFenceAux fuel s).1.length + 1 ∧
        joinInterleave gaps ((scanFenceAux fuel s).1.map Prod.fst) = s ∧
        (scanFenceAux fuel s).2 = gaps.flatten := by
  intro fuel
  induction fuel with
  | zero =>
      intro s h1
      have : s = [] := List.length_eq_zero.mp (Nat.le_zero.mp h1)
      subst this
      exact ⟨[[]], by simp [scanFenceAux, joinInterleave]⟩
  | succ n ih =>
      intro s h1
      cases s with
      | nil => exact ⟨[[]], by simp [scanFenceAux, joinInterleave]⟩
      | cons c rest =>
          rw [scanFenceAux]
          cases hm : matchFence (c :: rest) with
          | some t =>
              obtain ⟨sp, g, a⟩ := t
              have hlt := matchFence_shorter hm
              simp only [List.length_cons] at hlt h1
              have ha : a.length ≤ n := by omega
              obtain ⟨gaps', hlen, hjoin, hout⟩ := ih a ha
              refine ⟨[] :: gaps', by simpa using hlen, ?_, by simpa using hout⟩
              simp only [List.map_cons, joinInterleave, List.nil_append]
              rw [hjoin]
              exact (matchFence_decomp hm).1
          | none =>
              simp only [List.length_cons] at h1
              have hr : rest.length ≤ n := by omega
              obtain ⟨gaps', hlen, hjoin, hout⟩ := ih rest hr
              obtain ⟨g0, gs, rfl⟩ : ∃ g0 gs, gaps' = g0 :: gs := by
                cases gaps' with
                | nil => simp at hlen
                | cons g0 gs => exact ⟨g0, gs, rfl⟩
              refine ⟨(c :: g0) :: gs, by simpa using hlen, ?_, ?_⟩
              · rw [joinInterleave_cons_gap, hjoin]
              · simp only [List.flatten]
                simp only [List.flatten] at hout
                simp [hout]

theorem dropWhile_idem {α : Type} (p : α → Bool) (l : List α) :
    (l.dropWhile p).dropWhile p = l.dropWhile p := by
  induction l with
  | nil => simp
  | cons c rest ih =>
      by_cases h : p c
      · simp [List.dropWhile_cons, h, ih]
      · simp [List.dropWhile_cons, h]

theorem pyRstrip_idem (s : String) : pyRstrip (pyRstrip s) = pyRstrip s := by
  simp [pyRstrip, dropWhile_idem]

theorem pyRstrip_of_no_trailing (l : List Char)
    (h : (l.reverse.dropWhile isPySpace) = l.reverse) :
    pyRstrip (String.mk l) = String.mk l := by
  simp [pyRstrip, h]

theorem strip_of_no_blocks (t : String) (h : json_block_finditer t = []) :
    strip_json_block t = pyRstrip t := by
  unfold strip_json_block json_block_sub
  rw [scanFenceAux_no_match t.data.length t.data h]

theorem finditer_decomp (t : String) :
    ∃ gaps : List (List Char),
      gaps.length = (json_block_finditer t).length + 1 ∧
      joinInterleave gaps ((json_block_finditer t).map Prod.fst) = t.data ∧
      strip_json_block t = pyRstrip (String.mk gaps.flatten) := by
  obtain ⟨gaps, h1, h2, h3⟩ :=
    scanFenceAux_decomp t.data.length t.data (Nat.le_refl _)
  exact ⟨gaps, h1, h2, by rw [strip_json_block, json_block_sub, h3]⟩

/-! ## Claim C3 -/

/-- Claim C3 as frozen is false: the narrative is not the original input
unchanged.  On the input below there is exactly one fenced json block whose
group fails to parse (the parser rejects everything), the structured payload
is empty as claimed, but strip_json_block removes the unparseable block (and
the trailing space), so the narrative differs from the original text. -/
theorem c3_counterexample :
    (json_block_finditer "hello ```json \x7bbad\x7d ```").length = 1 ∧
    extract_update_payload (fun _ => none) "hello ```json \x7bbad\x7d ```" = none ∧
    strip_json_block "hello ```json \x7bbad\x7d ```" ≠ "hello ```json \x7bbad\x7d ```" :=
  ⟨by decide, rfl, by decide⟩

/-- Claim C3 amended: when the input has no fenced json block, or its last
block fails to parse, the extraction step returns an empty payload and no
error; the narrative equals the input with the matched blocks removed and
trailing whitespace stripped, which is the original text unchanged up to
trailing whitespace exactly when no block exists. -/
theorem c3_extractor_malformed_degrades (jl : String → Option JVal) (t : String)
    (h : json_block_finditer t = [] ∨
         ∃ m, (json_block_finditer t).getLast? = some m ∧ jl (String.mk m.2) = none) :
    extract_update_payload jl t = none ∧
    (json_block_finditer t = [] → strip_json_block t = pyRstrip t) := by
  constructor
  · rcases h with h | ⟨m, hm, hjl⟩
    · simp [extract_update_payload, h]
    · simp [extract_update_payload, hm, hjl]
  · intro h0
    exact strip_of_no_blocks t h0

/-- Witness for the claim C3 theorem at a concrete input with no fenced
block. -/
theorem c3_extractor_malformed_degrades_witness :
    extract_update_payload (fun _ => none) "a plain answer " = none ∧
    (json_block_finditer "a plain answer " = [] →
      strip_json_block "a plain answer " = pyRstrip "a plain answer ") :=
  c3_extractor_malformed_degrades (fun _ => none) "a plain answer "
    (Or.inl (by decide))

/-! ## Claim C4 -/

/-- Claim C4 as frozen is false: the narrative can still contain a fenced
block.  The input below contains one fenced json block (N = 1 ≥ 1), yet
removing its matched span makes a stray fence prefix adjacent to the
leftover brace text, so the returned narrative itself contains a fenced
block. -/
theorem c4_counterexample :
    0 < (json_block_finditer "A ```json ```json \x7bx\x7d ``` \x7by\x7d ```").length ∧
    json_block_finditer
      (strip_json_block "A ```json ```json \x7bx\x7d ``` \x7by\x7d ```") ≠ [] :=
  ⟨by decide, by decide⟩

/-- Claim C4 amended: for an input with N ≥ 1 fenced blocks the parsed
payload equals the json parse of the last block's group, and the narrative
equals the input with exactly the matched spans removed (the gaps between
and around the matches, concatenated) and trailing whitespace stripped; the
narrative need not be free of fenced blocks, since removal can create a new
adjacency. -/
theorem c4_last_block_wins (jl : String → Option JVal) (t : String)
    (h : 0 < (json_block_finditer t).length) :
    (∃ m, (json_block_finditer t).getLast? = some m ∧
        extract_update_payload jl t = jl (String.mk m.2)) ∧
    ∃ gaps : List (List Char),
      gaps.length = (json_block_finditer t).length + 1 ∧
      joinInterleave gaps ((json_block_finditer t).map Prod.fst) = t.data ∧
      strip_json_block t = pyRstrip (String.mk gaps.flatten) := by
  constructor
  · cases hl : (json_block_finditer t).getLast? with
    | none =>
        rw [List.getLast?_eq_none_iff] at hl
        rw [hl] at h
        simp at h
    | some m => exact ⟨m, rfl, by simp [extract_update_payload, hl]⟩
  · exact finditer_decomp t

/-- Witness for the claim C4 theorem at a concrete one-block input. -/
theorem c4_last_block_wins_witness :
    (∃ m, (json_block_finditer "x ```json \x7b1\x7d ```").getLast? = some m ∧
        extract_update_payload (fun _ => some (.jobj []))
          "x ```json \x7b1\x7d ```" = some (.jobj [])) ∧
    ∃ gaps : List (List Char),
      gaps.length = (json_block_finditer "x ```json \x7b1\x7d ```").length + 1 ∧
      joinInterleave gaps
        ((json_block_finditer "x ```json \x7b1\x7d ```").map Prod.fst)
        = "x ```json \x7b1\x7d ```".data ∧
      strip_json_block "x ```json \x7b1\x7d ```"
        = pyRstrip (String.mk gaps.flatten) :=
  c4_last_block_wins (fun _ => some (.jobj [])) "x ```json \x7b1\x7d ```"
    (by decide)

/-! ## Claim C8 -/

/-- Claim C8 as frozen is false: block removal is not idempotent.  On the
input below the single match ends with the fence that opens the second
would-be block; removing it makes the leading stray fence adjacent to the
surviving brace text, so a second extraction pass removes more. -/
theorem c8_counterexample :
    strip_json_block (strip_json_block "A ```json ```json \x7bx\x7d ``` \x7by\x7d ```")
      ≠ strip_json_block "A ```json ```json \x7bx\x7d ``` \x7by\x7d ```" := by
  decide

/-- Claim C8 amended: the narrative equals the original text with exactly
the matched spans removed and trailing whitespace stripped, and extraction
is idempotent on every input whose narrative contains no fenced block (in
general a second pass can remove blocks formed by new adjacencies). -/
theorem c8_strip_removes_matches (t : String) :
    (∃ gaps : List (List Char),
      gaps.length = (json_block_finditer t).length + 1 ∧
      joinInterleave gaps ((json_block_finditer t).map Prod.fst) = t.data ∧
      strip_json_block t = pyRstrip (String.mk gaps.flatten)) ∧
    (json_block_finditer (strip_json_block t) = [] →
      strip_json_block (strip_json_block t) = strip_json_block t) := by
  constructor
  · exact finditer_decomp t
  · intro h
    rw [strip_of_no_blocks _ h]
    obtain ⟨gaps, _, _, h3⟩ := finditer_decomp t
    rw [h3, pyRstrip_idem]

/-- Witness for the claim C8 theorem: a concrete input whose narrative has
no remaining block, on which the second pass is a no-op. -/
theorem c8_strip_removes_matches_witness :
    strip_json_block (strip_json_block "hi ```json \x7bz\x7d ```")
      = strip_json_block "hi ```json \x7bz\x7d ```" :=
  (c8_strip_removes_matches "hi ```json \x7bz\x7d ```").2 (by decide)

/-! ## Claim C7 -/

theorem data_mk (l : List Char) : (String.mk l).data = l := rfl

theorem mk_data (s : String) : String.mk s.data = s := rfl

theorem count_tokens_char (s : String) :
    TokenBudget.count_tokens charTokenizer s = s.length := by
  unfold TokenBudget.count_tokens
  by_cases h : s.data.isEmpty
  · rw [List.isEmpty_iff] at h
    show _ = s.data.length
    simp [h, charTokenizer]
  · simp [h, charTokenizer]

theorem charTokenizer_encode (s : String) : charTokenizer.encode s = s.data := rfl

theorem charTokenizer_decode (l : List Char) : charTokenizer.decode l = String.mk l := rfl

/-- Claim C7 as frozen is false: re-enforcing an already-trimmed text
returns the same text but not the same enforcement outcome.  With the
router budget overridden to 3 tokens, enforcing "abcd" trims (metadata
reports was_trimmed); enforcing the trimmed text again reports no trimming,
so the two results differ. -/
theorem c7_counterexample :
    (TokenBudget.enforce_budget
        (fun k => if k = "TOKEN_BUDGET_ROUTER" then some "3" else none)
        charTokenizer "router" "abcd").2.was_trimmed = true ∧
    (TokenBudget.enforce_budget
        (fun k => if k = "TOKEN_BUDGET_ROUTER" then some "3" else none)
        charTokenizer "router"
        ((TokenBudget.enforce_budget
            (fun k => if k = "TOKEN_BUDGET_ROUTER" then some "3" else none)
            charTokenizer "router" "abcd").1)).2.was_trimmed = false ∧
    TokenBudget.enforce_budget
        (fun k => if k = "TOKEN_BUDGET_ROUTER" then some "3" else none)
        charTokenizer "router"
        ((TokenBudget.enforce_budget
            (fun k => if k = "TOKEN_BUDGET_ROUTER" then some "3" else none)
            charTokenizer "router" "abcd").1)
      ≠ TokenBudget.enforce_budget
          (fun k => if k = "TOKEN_BUDGET_ROUTER" then some "3" else none)
          charTokenizer "router" "abcd" := by
  refine ⟨by decide, by decide, fun h => ?_⟩
  exact absurd (congrArg (fun p => p.2.was_trimmed) h) (by decide)

/-- Claim C7 amended: enforcement is idempotent on the text component: for
every environment, consumer type and text, enforcing the text component of
an enforcement result returns it unchanged (the metadata of the second
application differs when the first one trimmed). -/
theorem c7_enforce_text_idempotent (env : String → Option String)
    (agent_type text : String) :
    (TokenBudget.enforce_budget env charTokenizer agent_type
        (TokenBudget.enforce_budget env charTokenizer agent_type text).1).1
      = (TokenBudget.enforce_budget env charTokenizer agent_type text).1 := by
  by_cases hv : text.length ≤ TokenBudget.get_budget env agent_type
  · have h1 : (TokenBudget.enforce_budget env charTokenizer agent_type text).1 = text := by
      simp [TokenBudget.enforce_budget, TokenBudget.validate_context,
        count_tokens_char, hv]
    rw [h1]
    exact h1
  · have hpos : 0 < text.length := by omega
    have hne : ¬ text.data.isEmpty = true := by
      rw [List.isEmpty_iff]
      intro h0
      have hz : text.length = 0 := by
        show text.data.length = 0
        rw [h0]
        rfl
      omega
    have h1 : (TokenBudget.enforce_budget env charTokenizer agent_type text).1
        = String.mk (pyTakeLast text.data (TokenBudget.get_budget env agent_type)) := by
      have henc : (charTokenizer.encode text).length
          = text.length := rfl
      simp [TokenBudget.enforce_budget, TokenBudget.validate_context,
        TokenBudget.trim_to_budget, count_tokens_char, hv, hne,
        charTokenizer_decode, charTokenizer_encode, henc]
    rw [h1]
    by_cases hb0 : TokenBudget.get_budget env agent_type = 0
    · have ht : pyTakeLast text.data (TokenBudget.get_budget env agent_type)
          = text.data := by
        simp [pyTakeLast, hb0]
      rw [ht, mk_data] at h1 ⊢
      exact h1
    · have hlen : (String.mk (pyTakeLast text.data
          (TokenBudget.get_budget env agent_type))).length
          = TokenBudget.get_budget env agent_type := by
        show (pyTakeLast text.data (TokenBudget.get_budget env agent_type)).length = _
        simp only [pyTakeLast, if_neg hb0, List.length_drop]
        have hd : text.data.length = text.length := rfl
        omega
      simp [TokenBudget.enforce_budget, TokenBudget.validate_context,
        count_tokens_char, hlen]

/-- Witness for the claim C7 theorem at a concrete overridden budget and
text. -/
theorem c7_enforce_text_idempotent_witness :
    (TokenBudget.enforce_budget
        (fun k => if k = "TOKEN_BUDGET_ROUTER" then some "3" else none)
        charTokenizer "router"
        ((TokenBudget.enforce_budget
            (fun k => if k = "TOKEN_BUDGET_ROUTER" then some "3" else none)
            charTokenizer "router" "abcd").1)).1
      = ((TokenBudget.enforce_budget
            (fun k => if k = "TOKEN_BUDGET_ROUTER" then some "3" else none)
            charTokenizer "router" "abcd").1) :=
  c7_enforce_text_idempotent
    (fun k => if k = "TOKEN_BUDGET_ROUTER" then some "3" else none)
    "router" "abcd"

/-! ## Claim C5 -/

theorem retryAttempts_all_transient {ε α : Type} (isTr : ε → Bool)
    (call : Nat → AttemptOutcome ε α) (base maxd : ℚ) (maxA : Nat)
    (h : ∀ i, ∃ e, call i = .raise e ∧ isTr e = true) :
    ∀ (fuel attempt : Nat), 1 ≤ attempt → fuel + attempt = maxA + 1 →
      (retryAttempts isTr call base maxd maxA fuel attempt).2
        = (List.range (maxA - attempt)).map
            (fun i => qmin (base * 2 ^ (attempt - 1 + i)) maxd) := by
  intro fuel
  induction fuel with
  | zero =>
      intro attempt h1 h2
      have h0 : maxA - attempt = 0 := by omega
      simp [retryAttempts, h0]
  | succ n ih =>
      intro attempt h1 h2
      obtain ⟨e, hc, ht⟩ := h attempt
      rw [retryAttempts, hc]
      simp only [ht, Bool.not_true, Bool.false_eq_true, if_false]
      by_cases ha : attempt = maxA
      · simp [ha]
      · simp only [ha, if_false]
        rw [ih (attempt + 1) (by omega) (by omega)]
        have hm : maxA - attempt = (maxA - (attempt + 1)) + 1 := by omega
        rw [hm, List.range_succ_eq_map]
        simp only [List.map_cons, List.map_map, Nat.add_zero, List.cons.injEq]
        refine ⟨trivial, ?_⟩
        apply List.map_congr_left
        intro i _
        have he : attempt + i = attempt - 1 + (i + 1) := by omega
        simp [Function.comp, he]

/-- Claim C5 amended: when every attempt fails with a transient error, the
sleeps are exactly min(base_delay * 2^(attempt-1), max_delay) for attempts
1..max_attempts-1, that is max_attempts-1 sleeps.  The frozen claim's
second example keeps the four failing attempts of the first, for which the
sleeps are [1, 2, 3]; the capped sequence [1, 2, 3, 3] arises with five
failing attempts. -/
theorem c5_backoff_sequence {ε α : Type} (isTr : ε → Bool)
    (call : Nat → AttemptOutcome ε α) (maxA : Nat) (base maxd : ℚ)
    (h : ∀ i, ∃ e, call i = .raise e ∧ isTr e = true) :
    (run_with_retry isTr call maxA base maxd).2
      = (List.range (maxA - 1)).map (fun i => qmin (base * 2 ^ i) maxd) ∧
    (run_with_retry isTr call maxA base maxd).2.length = maxA - 1 := by
  have key := retryAttempts_all_transient isTr call base maxd maxA h maxA 1
    (Nat.le_refl 1) (by omega)
  constructor
  · rw [run_with_retry, key]
    apply List.map_congr_left
    intro i _
    simp
  · rw [run_with_retry, key]
    simp

/-- Claim C5 as frozen is false: with base_delay 1, max_delay 3 and four
failing transient attempts the sleeps are [1, 2, 3] (three sleeps for four
attempts), not [1, 2, 3, 3]. -/
theorem c5_counterexample :
    (run_with_retry (fun (_ : Unit) => true)
       (fun _ => (.raise () : AttemptOutcome Unit Unit)) 4 1 3).2 = [1, 2, 3] ∧
    (run_with_retry (fun (_ : Unit) => true)
       (fun _ => (.raise () : AttemptOutcome Unit Unit)) 4 1 3).2 ≠ [1, 2, 3, 3] := by
  constructor <;> norm_num [run_with_retry, retryAttempts, qmin]

/-- Witness for the claim C5 theorem: the two concrete sequences of the
amended claim, derived by applying the theorem. -/
theorem c5_backoff_sequence_witness :
    (run_with_retry (fun (_ : Unit) => true)
       (fun _ => (.raise () : AttemptOutcome Unit Unit)) 4 1 8).2 = [1, 2, 4] ∧
    (run_with_retry (fun (_ : Unit) => true)
       (fun _ => (.raise () : AttemptOutcome Unit Unit)) 5 1 3).2 = [1, 2, 3, 3] := by
  constructor
  · rw [(c5_backoff_sequence (fun (_ : Unit) => true)
      (fun _ => (.raise () : AttemptOutcome Unit Unit)) 4 1 8
      (fun _ => ⟨(), rfl, rfl⟩)).1]
    simp only [show (4 : Nat) - 1 = 3 from rfl, List.range_succ, List.range_zero]
    norm_num [qmin]
  · rw [(c5_backoff_sequence (fun (_ : Unit) => true)
      (fun _ => (.raise () : AttemptOutcome Unit Unit)) 5 1 3
      (fun _ => ⟨(), rfl, rfl⟩)).1]
    simp only [show (5 : Nat) - 1 = 4 from rfl, List.range_succ, List.range_zero]
    norm_num [qmin]

/-! ## Claim C2 -/

theorem setDiff_eq_nil_iff (a b : List String) :
    setDiff a b = [] ↔ ∀ n ∈ a, n ∈ b := by
  rw [setDiff, List.filter_eq_nil_iff]
  simp

/-- Claim C2 as frozen is false on the location rule: with a plan whose
recorded location is empty, the plan location "" and the current location
"cave" differ case-insensitively, so the claim demands update, but the
source guards the comparison with truthiness of both strings and keeps the
plan. -/
theorem c2_counterexample :
    combat_action_claimed ["goblin"] "cave" false
      (some [("prepared_for_npcs", JVal.jarr [JVal.jstr "goblin"]),
             ("prepared_for_location", JVal.jstr "")]) = CombatAction.update ∧
    (check_combat_plan_validity ["goblin"] "cave" false
      (some [("prepared_for_npcs", JVal.jarr [JVal.jstr "goblin"]),
             ("prepared_for_location", JVal.jstr "")])).action = CombatAction.keep := by
  constructor <;> decide

/-- Claim C2 amended: the decision of check_combat_plan_validity is exactly
the claimed procedure with the location rule weakened to fire only when
both the recorded and the current location are nonempty; the other rules
(clear/keep/update on empty scenes, new-participant staleness, the
strictly-more-than-half departure tie-break) are as claimed. -/
theorem setDiff_exists_of_pos (a b : List String)
    (h : 0 < (setDiff a b).length) : ∃ x ∈ a, x ∉ b := by
  obtain ⟨x, hx⟩ := List.exists_mem_of_length_pos h
  simp only [setDiff, List.mem_filter, decide_not, Bool.not_eq_true',
    decide_eq_false_iff_not] at hx
  exact ⟨x, hx.1, hx.2⟩

theorem half_cond_iff (a b : List String) :
    ((∃ x ∈ a, x ∉ b) ∧ a.length / 2 < (setDiff a b).length)
      ↔ a.length < 2 * (setDiff a b).length := by
  constructor
  · rintro ⟨_, hlt⟩
    omega
  · intro h
    have hpos : 0 < (setDiff a b).length := by omega
    exact ⟨setDiff_exists_of_pos a b hpos, by omega⟩

theorem c2_combat_decision :
    (∀ (participants : List String) (location : String) (hostile : Bool)
       (plan : Option (List (String × JVal))),
      (check_combat_plan_validity participants location hostile plan).action
        = combat_action_amended participants location hostile plan) ∧
    (check_combat_plan_validity [] "keep" false none).action = CombatAction.keep ∧
    (check_combat_plan_validity ["Goblin"] "keep" false none).action = CombatAction.update ∧
    (check_combat_plan_validity ["Goblin"] "cave" false
      (some [("prepared_for_npcs",
              JVal.jarr [JVal.jstr "goblin", JVal.jstr "orc", JVal.jstr "troll", JVal.jstr "ghost"]),
             ("prepared_for_location", JVal.jstr "cave")])).action = CombatAction.update ∧
    (check_combat_plan_validity ["Goblin", "Orc", "Troll"] "cave" false
      (some [("prepared_for_npcs",
              JVal.jarr [JVal.jstr "goblin", JVal.jstr "orc", JVal.jstr "troll", JVal.jstr "ghost"]),
             ("prepared_for_location", JVal.jstr "cave")])).action = CombatAction.keep := by
  refine ⟨?_, by decide, by decide, by decide, by decide⟩
  intro participants location hostile plan
  unfold check_combat_plan_validity combat_action_amended
  cases plan <;>
    split_ifs <;>
    simp_all [List.isEmpty_iff, setDiff_eq_nil_iff, List.length_eq_zero] <;>
    try omega
  all_goals rename_i h
  all_goals rw [if_neg (fun hq => absurd hq.2 (by simp [h hq.1]))]
  all_goals first
    | rfl
    | (simp only [half_cond_iff]
       split_ifs <;> simp_all)

/-! ## Claims C6 and C9: the scene patch merge -/

theorem lookupField_dictSet (d : List (String × JVal)) (k : String) (v : JVal)
    (q : String) :
    lookupField (dictSet d k v) q = if k = q then some v else lookupField d q := by
  induction d with
  | nil => by_cases h : k = q <;> simp [dictSet, lookupField, h]
  | cons a rest ih =>
      obtain ⟨a1, a2⟩ := a
      by_cases h1 : a1 = k
      · subst h1
        by_cases h2 : a1 = q <;> simp [dictSet, lookupField, h2]
      · by_cases h2 : a1 = q
        · subst h2
          have hkq : ¬ k = a1 := fun h => h1 h.symm
          simp [dictSet, lookupField, h1, hkq]
        · simp [dictSet, lookupField, h1, h2, ih]

theorem lookupField_none_of_not_mem (ps : List (String × JVal)) (k : String)
    (h : k ∉ ps.map Prod.fst) : lookupField ps k = none := by
  induction ps with
  | nil => rfl
  | cons a rest ih =>
      simp only [List.map_cons, List.mem_cons] at h
      push_neg at h
      have hne : ¬ a.1 = k := fun hh => h.1 hh.symm
      simp [lookupField, hne, ih h.2]

theorem lookupField_mem {ps : List (String × JVal)} {k : String} {v : JVal}
    (h : lookupField ps k = some v) : (k, v) ∈ ps := by
  induction ps with
  | nil => simp [lookupField] at h
  | cons a rest ih =>
      rw [lookupField] at h
      by_cases h1 : a.1 = k
      · rw [if_pos h1] at h
        obtain ⟨a1, a2⟩ := a
        simp only [Option.some.injEq] at h
        subst h h1
        exact List.mem_cons_self _ _
      · rw [if_neg h1] at h
        exact List.mem_cons_of_mem _ (ih h)

/-- What a merged dict reports for a key: the patch's non-None value for
the key if any, otherwise the base dict's value. -/
def patchLookup (patch data : List (String × JVal)) (k : String) : Option JVal :=
  match lookupField patch k with
  | some v => if v.isNull then lookupField data k else some v
  | none => lookupField data k

theorem mergeFold_lookup (patch : List (String × JVal)) :
    ∀ (data : List (String × JVal)) (k : String),
      (patch.map Prod.fst).Nodup →
      lookupField
        (patch.foldl (fun d kv => if kv.2.isNull then d else dictSet d kv.1 kv.2) data) k
        = patchLookup patch data k := by
  induction patch with
  | nil => intro data k _; simp [patchLookup, lookupField]
  | cons kv ps ih =>
      intro data k hnd
      obtain ⟨k0, v0⟩ := kv
      simp only [List.map_cons, List.nodup_cons] at hnd
      obtain ⟨hk0, hnd'⟩ := hnd
      rw [List.foldl_cons, ih _ k hnd']
      by_cases hkk : k0 = k
      · subst hkk
        have hps : lookupField ps k0 = none :=
          lookupField_none_of_not_mem ps k0 hk0
        unfold patchLookup
        rw [hps]
        simp only [lookupField, if_pos rfl]
        by_cases hnull : v0.isNull
        · simp [hnull]
        · simp [hnull, lookupField_dictSet]
      · unfold patchLookup
        have hcons : lookupField ((k0, v0) :: ps) k = lookupField ps k := by
          simp [lookupField, hkk]
        rw [hcons]
        have hupd : lookupField (if v0.isNull = true then data else dictSet data k0 v0) k
            = lookupField data k := by
          by_cases hnull : v0.isNull
          · simp [hnull]
          · simp [hnull, lookupField_dictSet, hkk]
        cases hl : lookupField ps k with
        | none => simp [hupd]
        | some v => by_cases hv : v.isNull <;> simp [hv, hupd]

theorem allStrings_map_jstr (l : List String) :
    allStrings (l.map JVal.jstr) = some l := by
  induction l with
  | nil => rfl
  | cons a rest ih => simp [allStrings, ih]

theorem patchLookup_str (patch data : List (String × JVal)) (k : String)
    (dflt : String) (hwt : wellTypedPatch patch = true)
    (hk : k = "time_of_day" ∨ k = "region" ∨ k = "sub_region" ∨ k = "specific_location")
    (hdata : lookupField data k = some (JVal.jstr dflt)) :
    ∃ v, patchLookup patch data k = some v ∧
      (match v with | JVal.jstr s => some s | _ => none)
        = some (strOverride patch k dflt) := by
  cases hl : lookupField patch k with
  | none =>
      refine ⟨JVal.jstr dflt, ?_, ?_⟩
      · unfold patchLookup
        rw [hl, hdata]
      · unfold strOverride
        rw [hl]
  | some v =>
      by_cases hnull : v.isNull
      · have hv : v = JVal.jnull := by cases v <;> simp_all [JVal.isNull]
        subst hv
        refine ⟨JVal.jstr dflt, ?_, ?_⟩
        · unfold patchLookup
          rw [hl]
          simp [JVal.isNull, hdata]
        · unfold strOverride
          rw [hl]
      · have hmem := lookupField_mem hl
        have hok : sceneFieldOk k v = true := by
          have hall := List.all_eq_true.mp hwt _ hmem
          simp only [Bool.or_eq_true] at hall
          rcases hall with hn | hok
          · exact absurd hn (by simpa using hnull)
          · exact hok
        unfold sceneFieldOk at hok
        rw [if_pos hk] at hok
        obtain ⟨s, rfl⟩ : ∃ s, v = JVal.jstr s := by
          cases v
          case jstr s0 => exact ⟨s0, rfl⟩
          all_goals simp at hok
        refine ⟨JVal.jstr s, ?_, ?_⟩
        · unfold patchLookup
          rw [hl]
          simp [JVal.isNull]
        · unfold strOverride
          rw [hl]

theorem patchLookup_list (patch data : List (String × JVal)) (k : String)
    (dflt : List String) (hwt : wellTypedPatch patch = true)
    (hk : k = "participants" ∨ k = "exits")
    (hdata : lookupField data k = some (JVal.jarr (dflt.map JVal.jstr))) :
    ∃ v, patchLookup patch data k = some v ∧
      (match v with | JVal.jarr xs => allStrings xs | _ => none)
        = some (listOverride patch k dflt) := by
  cases hl : lookupField patch k with
  | none =>
      refine ⟨JVal.jarr (dflt.map JVal.jstr), ?_, ?_⟩
      · unfold patchLookup
        rw [hl, hdata]
      · unfold listOverride
        rw [hl]
        simp [allStrings_map_jstr]
  | some v =>
      by_cases hnull : v.isNull
      · have hv : v = JVal.jnull := by cases v <;> simp_all [JVal.isNull]
        subst hv
        refine ⟨JVal.jarr (dflt.map JVal.jstr), ?_, ?_⟩
        · unfold patchLookup
          rw [hl]
          simp [JVal.isNull, hdata]
        · unfold listOverride
          rw [hl]
          simp [allStrings_map_jstr]
      · have hmem := lookupField_mem hl
        have hok : sceneFieldOk k v = true := by
          have hall := List.all_eq_true.mp hwt _ hmem
          simp only [Bool.or_eq_true] at hall
          rcases hall with hn | hok
          · exact absurd hn (by simpa using hnull)
          · exact hok
        have hnotstr : ¬ (k = "time_of_day" ∨ k = "region" ∨ k = "sub_region" ∨
            k = "specific_location") := by
          rcases hk with h | h <;> subst h <;> decide
        unfold sceneFieldOk at hok
        rw [if_neg hnotstr, if_pos hk] at hok
        obtain ⟨xs, rfl⟩ : ∃ xs, v = JVal.jarr xs := by
          cases v
          case jarr xs0 => exact ⟨xs0, rfl⟩
          all_goals simp at hok
        simp only [Option.isSome_iff_exists] at hok
        obtain ⟨l, hlz⟩ := hok
        refine ⟨JVal.jarr xs, ?_, ?_⟩
        · unfold patchLookup
          rw [hl]
          simp [JVal.isNull]
        · unfold listOverride
          rw [hl]
          simp [hlz]

/-- Claim C6: merge_scene_patch overwrites exactly the base fields whose
key appears in the patch with a non-None, type-correct value; absent keys
and present-but-None keys leave the base field untouched; the result is a
fresh SceneState value (validation succeeds), the base being unchanged by
construction in this pure model (the source copies via model_dump before
updating). -/
theorem c6_merge_scene_patch (base : SceneState) (patch : List (String × JVal))
    (hwt : wellTypedPatch patch = true) (hnd : (patch.map Prod.fst).Nodup) :
    merge_scene_patch base patch = some
      { time_of_day := strOverride patch "time_of_day" base.time_of_day
        region := strOverride patch "region" base.region
        sub_region := strOverride patch "sub_region" base.sub_region
        specific_location := strOverride patch "specific_location" base.specific_location
        participants := listOverride patch "participants" base.participants
        exits := listOverride patch "exits" base.exits } := by
  obtain ⟨v1, hv1, hc1⟩ := patchLookup_str patch base.model_dump "time_of_day"
    base.time_of_day hwt (by tauto) (by simp [SceneState.model_dump, lookupField])
  obtain ⟨v2, hv2, hc2⟩ := patchLookup_str patch base.model_dump "region"
    base.region hwt (by tauto) (by simp [SceneState.model_dump, lookupField])
  obtain ⟨v3, hv3, hc3⟩ := patchLookup_str patch base.model_dump "sub_region"
    base.sub_region hwt (by tauto) (by simp [SceneState.model_dump, lookupField])
  obtain ⟨v4, hv4, hc4⟩ := patchLookup_str patch base.model_dump "specific_location"
    base.specific_location hwt (by tauto) (by simp [SceneState.model_dump, lookupField])
  obtain ⟨v5, hv5, hc5⟩ := patchLookup_list patch base.model_dump "participants"
    base.participants hwt (by tauto) (by simp [SceneState.model_dump, lookupField])
  obtain ⟨v6, hv6, hc6⟩ := patchLookup_list patch base.model_dump "exits"
    base.exits hwt (by tauto) (by simp [SceneState.model_dump, lookupField])
  unfold merge_scene_patch sceneStateOfData
  simp only [mergeFold_lookup patch base.model_dump _ hnd,
    hv1, hv2, hv3, hv4, hv5, hv6, Option.bind_eq_bind, Option.some_bind,
    hc1, hc2, hc3, hc4, hc5, hc6]
  rfl

/-- Witness for the claim C6 theorem: the spec's a/b/c example mapped onto
three SceneState fields; the explicit-None entry is a no-op. -/
theorem c6_merge_scene_patch_witness :
    merge_scene_patch ⟨"y", "z", "w", "loc", ["p"], ["e"]⟩
      [("time_of_day", JVal.jstr "x"), ("region", JVal.jnull)] = some
      { time_of_day := strOverride [("time_of_day", JVal.jstr "x"), ("region", JVal.jnull)]
          "time_of_day" "y"
        region := strOverride [("time_of_day", JVal.jstr "x"), ("region", JVal.jnull)]
          "region" "z"
        sub_region := strOverride [("time_of_day", JVal.jstr "x"), ("region", JVal.jnull)]
          "sub_region" "w"
        specific_location := strOverride [("time_of_day", JVal.jstr "x"), ("region", JVal.jnull)]
          "specific_location" "loc"
        participants := listOverride [("time_of_day", JVal.jstr "x"), ("region", JVal.jnull)]
          "participants" ["p"]
        exits := listOverride [("time_of_day", JVal.jstr "x"), ("region", JVal.jnull)]
          "exits" ["e"] } ∧
    merge_scene_patch ⟨"y", "z", "w", "loc", ["p"], ["e"]⟩
      [("time_of_day", JVal.jstr "x"), ("region", JVal.jnull)]
      = some ⟨"x", "z", "w", "loc", ["p"], ["e"]⟩ :=
  ⟨c6_merge_scene_patch ⟨"y", "z", "w", "loc", ["p"], ["e"]⟩
      [("time_of_day", JVal.jstr "x"), ("region", JVal.jnull)]
      (by decide) (by simp), rfl⟩

theorem lookupField_foldl_agree (patch : List (String × JVal)) :
    ∀ (d1 d2 : List (String × JVal)),
      (∀ k ∈ sceneFields, lookupField d1 k = lookupField d2 k) →
      ∀ k ∈ sceneFields,
        lookupField
          (patch.foldl (fun d kv => if kv.2.isNull then d else dictSet d kv.1 kv.2) d1) k
          = lookupField
              ((patch.filter (fun kv => kv.1 ∈ sceneFields)).foldl
                (fun d kv => if kv.2.isNull then d else dictSet d kv.1 kv.2) d2) k := by
  induction patch with
  | nil => intro d1 d2 h k hk; simp [h k hk]
  | cons kv ps ih =>
      intro d1 d2 h k hk
      by_cases hmem : kv.1 ∈ sceneFields
      · rw [List.foldl_cons,
          show (kv :: ps).filter (fun kv => decide (kv.1 ∈ sceneFields))
            = kv :: ps.filter (fun kv => decide (kv.1 ∈ sceneFields)) from by
              simp [List.filter_cons, hmem],
          List.foldl_cons]
        apply ih
        · intro q hq
          by_cases hnull : kv.2.isNull
          · simp [hnull, h q hq]
          · simp [hnull, lookupField_dictSet, h q hq]
        · exact hk
      · rw [List.foldl_cons,
          show (kv :: ps).filter (fun kv => decide (kv.1 ∈ sceneFields))
            = ps.filter (fun kv => decide (kv.1 ∈ sceneFields)) from by
              simp [List.filter_cons, hmem]]
        apply ih
        · intro q hq
          have hne : kv.1 ≠ q := fun he => hmem (he ▸ hq)
          by_cases hnull : kv.2.isNull
          · simp [hnull, h q hq]
          · simp [hnull, lookupField_dictSet, hne, h q hq]
        · exact hk

theorem sceneStateOfData_congr (d1 d2 : List (String × JVal))
    (h : ∀ k ∈ sceneFields, lookupField d1 k = lookupField d2 k) :
    sceneStateOfData d1 = sceneStateOfData d2 := by
  unfold sceneStateOfData
  rw [h "time_of_day" (by simp [sceneFields]), h "region" (by simp [sceneFields]),
    h "sub_region" (by simp [sceneFields]),
    h "specific_location" (by simp [sceneFields]),
    h "participants" (by simp [sceneFields]), h "exits" (by simp [sceneFields])]

/-- Claim C9: patch keys outside the six SceneState fields have no effect
on merge_scene_patch (the merge equals the merge of the patch restricted to
the six fields), and in particular the combat_plan and hostile_environment
entries the orchestrator folds into the scene patch are dropped. -/
theorem c9_merge_ignores_unknown_keys (base : SceneState)
    (patch : List (String × JVal)) (v w : JVal) :
    merge_scene_patch base patch
      = merge_scene_patch base (patch.filter (fun kv => kv.1 ∈ sceneFields)) ∧
    merge_scene_patch base (patch ++ [("combat_plan", v), ("hostile_environment", w)])
      = merge_scene_patch base patch := by
  have key : ∀ q : List (String × JVal),
      merge_scene_patch base q
        = merge_scene_patch base (q.filter (fun kv => kv.1 ∈ sceneFields)) := by
    intro q
    unfold merge_scene_patch
    exact sceneStateOfData_congr _ _
      (lookupField_foldl_agree q base.model_dump base.model_dump (fun _ _ => rfl))
  refine ⟨key patch, ?_⟩
  rw [key (patch ++ [("combat_plan", v), ("hostile_environment", w)]), key patch]
  rw [List.filter_append]
  simp [sceneFields]

/-! ## Claim C10 -/

theorem pyValGet_obj (fs : List (String × JVal)) (k : String) :
    pyValGet (JVal.jobj fs) k = Except.ok (pyDictGet fs k) := rfl

theorem pyValGetD_obj (fs : List (String × JVal)) (k : String) (d : JVal) :
    pyValGetD (JVal.jobj fs) k d = Except.ok (pyDictGetD fs k d) := rfl

theorem combat_inputs_eval (ss sp : List (String × JVal)) :
    combat_readiness_inputs (JVal.jobj ss) (JVal.jobj sp)
      = Except.ok (sel_participants ss sp, sel_location ss sp, sel_hostile ss sp) := by
  unfold combat_readiness_inputs sel_participants sel_location sel_hostile
  simp only [pyValGet_obj, pyValGetD_obj]
  cases hp : pyDictGet sp "participants" <;>
    cases hl : pyDictGet sp "specific_location" <;>
      cases hh : pyDictGet sp "hostile_environment" <;>
        simp only [Bind.bind, Except.bind, pure, Except.pure] <;>
        first
          | rfl
          | (split_ifs <;> rfl)

/-- Claim C10: in check_and_update_combat_plan the combat readiness inputs
come from the scene patch via Python `or` for participants and location,
so an empty-list participants patch or an empty-string location patch is
indistinguishable from an absent key and falls back to the pre-turn scene
state's value, while hostile_environment uses `is not None`, so an explicit
false in the patch is honored and only None falls back. -/
theorem c10_combat_inputs_fallback (ss sp : List (String × JVal)) :
    (combat_readiness_inputs (JVal.jobj ss) (JVal.jobj sp)
       = Except.ok (sel_participants ss sp, sel_location ss sp, sel_hostile ss sp)) ∧
    (lookupField sp "participants" = none →
      sel_participants ss (("participants", JVal.jarr []) :: sp) = sel_participants ss sp ∧
      sel_participants ss (("participants", JVal.jarr []) :: sp)
        = pyDictGetD ss "participants" (JVal.jarr [])) ∧
    (lookupField sp "specific_location" = none →
      sel_location ss (("specific_location", JVal.jstr "") :: sp) = sel_location ss sp ∧
      sel_location ss (("specific_location", JVal.jstr "") :: sp)
        = pyDictGetD ss "specific_location" (JVal.jstr "")) ∧
    (lookupField sp "hostile_environment" = some (JVal.jbool false) →
      sel_hostile ss sp = JVal.jbool false) ∧
    (lookupField sp "hostile_environment" = some JVal.jnull →
      sel_hostile ss sp = pyDictGetD ss "hostile_environment" (JVal.jbool false)) := by
  refine ⟨combat_inputs_eval ss sp, ?_, ?_, ?_, ?_⟩
  · intro h
    constructor <;>
      simp [sel_participants, pyDictGet, lookupField, h, jTruthy]
  · intro h
    constructor <;>
      simp [sel_location, pyDictGet, lookupField, h, jTruthy]
  · intro h
    simp [sel_hostile, pyDictGet, h]
  · intro h
    simp [sel_hostile, pyDictGet, h]

/-- Witness for the claim C10 theorem: an empty-list participants patch
falls back to the scene's participants, and an explicit false for
hostile_environment is honored. -/
theorem c10_combat_inputs_fallback_witness :
    sel_participants [("participants", JVal.jarr [JVal.jstr "guard"])]
        (("participants", JVal.jarr []) :: [("hostile_environment", JVal.jbool false)])
      = JVal.jarr [JVal.jstr "guard"] ∧
    sel_hostile [("hostile_environment", JVal.jbool true)]
        [("hostile_environment", JVal.jbool false)] = JVal.jbool false := by
  constructor
  · exact ((c10_combat_inputs_fallback
      [("participants", JVal.jarr [JVal.jstr "guard"])]
      [("hostile_environment", JVal.jbool false)]).2.1 rfl).2
  · exact (c10_combat_inputs_fallback
      [("hostile_environment", JVal.jbool true)]
      [("hostile_environment", JVal.jbool false)]).2.2.2.1 rfl

/-! ## Claim C1 -/

/-- The collaborator outcomes of the failing turn: the classifier call
succeeds but returns the unstructured text "42", which json.loads parses to
the number 42; every agent is registered and the specialist call would
succeed. -/
def c1_failing_deps : OrchestratorDeps :=
  { json_loads := fun s => if s = "42" then some (.jnum 42) else none
    agents := fun _ => true
    router_outcome := .unstructured "42"
    specialist_outcome := fun _ => some "The story continues."
    combat_designer_outcome := some "plan text"
    extract_narrative := fun s => s }

/-- Claim C1 is the intended behaviour but the code violates it: when the
classifier returns text that json.loads parses to a truthy non-dict (here
the number 42), the membership test  "intent" not in router_data  raises
TypeError, which propagates out of orchestrate_turn instead of falling back
to narrative_short, even though every agent is registered and the
specialist call succeeds. -/
theorem c1_router_nondict_json_crashes :
    orchestrate_turn c1_failing_deps []
      = Except.error (PyErr.typeError "argument is not iterable") := rfl

end Aidm
